import Mathlib

/-!
Shallow embedding of the rfetch utility (src/rfetch/src/main.rs).

Text is modelled as Lean `String` (a wrapper around `List Char`); the
Rust standard-library string helpers that the program uses (`trim`,
`lines`, `split_whitespace`, `starts_with`, `contains`, `replace`,
integer and float parsing) are re-implemented here by structural
recursion on the character list, restricted to the ASCII behaviour the
program relies on.

Floating-point arithmetic in the source (unit conversion followed by
one-decimal formatting) is modelled in exact integer arithmetic: the
value rendered for a quantity q by the Rust one-decimal format is
modelled as the integer nearest to 10*q (half rounded up), printed as
quotient, a dot, and remainder mod 10.  This agrees with the f64
computation at every concrete value appearing in this development.

Filesystem reads, environment variables, symlink targets and the child
process are modelled as `Option` inputs (`none` = the source is absent
or fails), mirroring the `Result`/`Option` values the source inspects.
-/

namespace RFetch

/-- ASCII whitespace test matching the characters the Rust standard
library treats as whitespace in the ASCII range (space, tab, line feed,
carriage return, vertical tab, form feed). -/
def isWS (c : Char) : Bool :=
  c = ' ' || c = '\t' || c = '\n' || c = '\r' || c = '\x0b' || c = '\x0c'

/-- Drop leading and trailing whitespace from a character list. -/
def trimChars (l : List Char) : List Char :=
  ((l.dropWhile isWS).reverse.dropWhile isWS).reverse

/-- Rust str trim. -/
def trimS (s : String) : String := String.mk (trimChars s.data)

/-- Is the first list a leading segment of the second list? -/
def startsL : List Char → List Char → Bool
  | [], _ => true
  | _ :: _, [] => false
  | p :: ps, c :: cs => p = c && startsL ps cs

/-- Rust str starts_with for a string pattern. -/
def startsS (s pat : String) : Bool := startsL pat.data s.data

/-- Does the needle occur as a contiguous segment of the haystack? -/
def containsL (needle : List Char) : List Char → Bool
  | [] => startsL needle []
  | c :: cs => startsL needle (c :: cs) || containsL needle cs

/-- Rust str contains for a string pattern (substring search). -/
def containsS (s pat : String) : Bool := containsL pat.data s.data

/-- Split a character list at every occurrence of the separator; the
result has one (possibly empty) piece more than there are separators. -/
def splitOnCh (sep : Char) : List Char → List (List Char)
  | [] => [[]]
  | c :: cs =>
    if c = sep then [] :: splitOnCh sep cs
    else
      match splitOnCh sep cs with
      | [] => [[c]]
      | l :: ls => (c :: l) :: ls

/-- Split at every line feed. -/
def splitNL (l : List Char) : List (List Char) := splitOnCh '\n' l

/-- Drop one trailing carriage return, if present. -/
def stripCR (l : List Char) : List Char :=
  if l.getLast? = some '\r' then l.dropLast else l

/-- Pieces of a Rust `lines` iteration: every piece that was followed by
a line feed loses a trailing carriage return; a final empty piece (from
a trailing line feed) is dropped; a final nonempty piece is kept
verbatim. -/
def rlinesAux : List (List Char) → List (List Char)
  | [] => []
  | [last] => if last = [] then [] else [last]
  | l :: ls => stripCR l :: rlinesAux ls

/-- Rust str lines. -/
def rlines (s : String) : List String := (rlinesAux (splitNL s.data)).map String.mk

/-- Accumulator-style splitting on whitespace runs (no empty pieces). -/
def splitWSAux : List Char → List Char → List (List Char)
  | [], acc => if acc = [] then [] else [acc.reverse]
  | c :: cs, acc =>
    if isWS c then
      if acc = [] then splitWSAux cs [] else acc.reverse :: splitWSAux cs []
    else splitWSAux cs (c :: acc)

/-- Rust str split_whitespace. -/
def splitWS (s : String) : List String := (splitWSAux s.data []).map String.mk

/-- Numeric value of a list of decimal digit characters. -/
def digitsToNat (l : List Char) : Nat := l.foldl (fun a c => a * 10 + (c.toNat - 48)) 0

/-- All-digits check combined with evaluation; `none` on a non-digit. -/
def digitsValAux : List Char → Nat → Option Nat
  | [], acc => some acc
  | c :: cs, acc => if c.isDigit then digitsValAux cs (acc * 10 + (c.toNat - 48)) else none

/-- Rust u64 from_str: an optional leading plus sign, one or more
decimal digits, value below 2^64. -/
def parseU64 (s : String) : Option Nat :=
  let l := match s.data with
    | '+' :: r => r
    | r => r
  match l with
  | [] => none
  | _ =>
    match digitsValAux l 0 with
    | some n => if n < 18446744073709551616 then some n else none
    | none => none

/-- Decimal digits of a natural number, most significant first; the
first argument is recursion fuel (any fuel above the digit count gives
the same answer). -/
def natDigitsAux : Nat → Nat → List Char → List Char
  | 0, _, acc => acc
  | fuel + 1, n, acc =>
    if n < 10 then Char.ofNat (48 + n) :: acc
    else natDigitsAux fuel (n / 10) (Char.ofNat (48 + n % 10) :: acc)

/-- Decimal rendering of a natural number (Rust Display for integers). -/
def natRepr (n : Nat) : String := String.mk (natDigitsAux (n + 1) n [])

/-- Print a quantity of tenths as a number with exactly one decimal
digit (the Rust one-decimal float format, modelled exactly). -/
def fmtDeci (t : Nat) : String := natRepr (t / 10) ++ "." ++ natRepr (t % 10)

/-- Signed variant of `fmtDeci`. -/
def fmtDeciI (t : Int) : String :=
  if t < 0 then "-" ++ fmtDeci t.natAbs else fmtDeci t.toNat

/-- Tenths of decimal gigabytes in a byte count: the integer nearest to
10 * b / 10^9 (exact model of dividing by 1e9 as f64 and formatting
with one decimal digit). -/
def deciGB (b : Nat) : Nat := (2 * b + 100000000) / 200000000

/-- Signed variant of `deciGB` for differences of byte counts. -/
def deciGBInt (x : Int) : Int := Int.fdiv (2 * x + 100000000) 200000000

/-- Tenths of binary gibibytes in a kibibyte count: the integer nearest
to 10 * kb / 2^20 (exact model of the source kb_to_gib, division by
1024 twice as f64, followed by one-decimal formatting). -/
def deciGiB (kb : Nat) : Nat := (20 * kb + 1048576) / 2097152

/-! ## Probes

Each probe is a pure function of the host-state pieces it reads; an
`Option String` input is the outcome of the corresponding read (`none`
when the file, variable, link or child process is absent or fails). -/

/-- Source get_username: the USER environment variable, `unknown` when
unset (or not valid unicode). -/
def get_username (user : Option String) : String := user.getD "unknown"

/-- Source get_hostname: trimmed contents of /etc/hostname, falling back
to the literal `unknown` (which trims to itself). -/
def get_hostname (file : Option String) : String := trimS (file.getD "unknown")

/-- One non-overlapping left-to-right pattern deletion pass, as in Rust
str replace with an empty replacement; the pattern is passed with an
explicit head so that it is never empty, and the first argument is
recursion fuel (one unit per consumed character suffices). -/
def removePatAux (p : Char) (ps : List Char) : Nat → List Char → List Char
  | 0, l => l
  | _ + 1, [] => []
  | fuel + 1, c :: cs =>
    if startsL (p :: ps) (c :: cs) then
      removePatAux p ps fuel ((c :: cs).drop (p :: ps).length)
    else c :: removePatAux p ps fuel cs

/-- Rust str replace with an empty replacement string, for a nonempty
pattern given as head and tail. -/
def removePat (p : Char) (ps : List Char) (l : List Char) : List Char :=
  removePatAux p ps (l.length + 1) l

/-- Source: `.replace ("PRETTY_NAME=", "")` — every occurrence of the
key text deleted. -/
def removeKey (l : String) : String :=
  String.mk (removePat 'P' "RETTY_NAME=".data l.data)

/-- Source: `.replace ('"', "")` — every double-quote character
deleted. -/
def stripQ (s : String) : String := String.mk (s.data.filter (fun c => c ≠ '"'))

/-- The line filter of the os probe. -/
def pnLine (l : String) : Bool := startsS l "PRETTY_NAME="

/-- Source get_os.  Note the source closure `|_| return "unknow".into()`
only returns from the closure, so an unreadable file yields the content
`unknow`, which has no PRETTY_NAME line and therefore falls through to
the final `unknown`. -/
def get_os (file : Option String) : String :=
  let content := file.getD "unknow"
  match (rlines content).find? pnLine with
  | some line => stripQ (removeKey line)
  | none => "unknown"

/-- Source detect_init.  `commFile` is the read of /proc/1/comm
(`unwrap_or_default` gives the empty string on failure), `exeLink` the
target of /proc/1/exe as a unicode string (empty on failure), and
`runSystemdExists` the existence check on /run/systemd/systemd. -/
def detect_init (commFile exeLink : Option String) (runSystemdExists : Bool) : String :=
  let comm := trimS (commFile.getD "")
  let exe := exeLink.getD ""
  if comm = "systemd" then "systemd"
  else if comm = "runit" || comm = "runsvinit" then "runit"
  else if comm = "s6-svscan" then "s6"
  else if comm = "init" then
    if containsS exe "openrc" then "openrc" else "sysvinit"
  else if runSystemdExists then "systemd (fallback)"
  else "unknown (" ++ comm ++ ")"

/-- Source get_kernel.  The input is the result of running `uname -r`:
`none` when the child could not be spawned, otherwise the exit code and
the captured standard output.  The source matches only on Ok/Err and
never inspects the status, so the exit code is ignored. -/
def get_kernel (output : Option (Nat × String)) : String :=
  match output with
  | some res => trimS res.2
  | none => "unknown"

/-- Rust f64 from_str restricted to finite plain decimal notation (an
optional sign, digits, an optional dot and fraction digits); the result
is sign, numerator and positive denominator, exact.  Exponent, inf and
nan forms are not needed by any input in this development and are
rejected. -/
def parseDec (s : String) : Option (Bool × Nat × Nat) :=
  let sl := match s.data with
    | '-' :: r => (true, r)
    | '+' :: r => (false, r)
    | r => (false, r)
  let ip := sl.2.takeWhile Char.isDigit
  let rest := sl.2.dropWhile Char.isDigit
  match rest with
  | [] => if ip = [] then none else some (sl.1, digitsToNat ip, 1)
  | '.' :: fr =>
    let fp := fr.takeWhile Char.isDigit
    if fr.dropWhile Char.isDigit = [] && (ip ≠ [] || fp ≠ []) then
      some (sl.1, digitsToNat ip * 10 ^ fp.length + digitsToNat fp, 10 ^ fp.length)
    else none
  | _ => none

/-- Source get_uptime.  The source closure `|_| return "unknown".into()`
only returns from the closure, so an unreadable file yields the content
`unknown`; its first token fails to parse, the seconds default to zero
and the probe renders `0h 0m`.  The cast `as u64` truncates toward zero
and saturates negative values at zero. -/
def get_uptime (file : Option String) : String :=
  let content := file.getD "unknown"
  let tok := (splitWS content).getD 0 "0"
  let sec := (parseDec tok).getD (false, 0, 1)
  let minutes := if sec.1 then 0 else sec.2.1 / (60 * sec.2.2)
  natRepr (minutes / 60) ++ "h " ++ natRepr (minutes % 60) ++ "m"

/-- Rust Path file_name: the last normal component (empty components and
lone dots are not components; a final dot-dot gives nothing). -/
def fileName (p : String) : Option String :=
  let comps := ((splitOnCh '/' p.data).map String.mk).filter (fun c => c ≠ "" && c ≠ ".")
  match comps.getLast? with
  | some last => if last = ".." then none else some last
  | none => none

/-- Source get_shell: final path component of the SHELL environment
variable, `unknown` when unset or without a final component. -/
def get_shell (shellVar : Option String) : String :=
  (shellVar.bind fileName).getD "unknown"

/-- Source extract_kb: second whitespace token of the line, parsed as
u64, with `0` substituted for a missing token or a failed parse. -/
def extract_kb (line : String) : Nat :=
  (parseU64 ((splitWS line).getD 1 "0")).getD 0

/-- The meminfo scan loop of get_memory: every line starting with
`MemTotal:` overwrites the total, every line starting with
`MemAvailable: ` (note the trailing space) overwrites the available
count. -/
def memScan : List String → Nat × Nat → Nat × Nat
  | [], acc => acc
  | l :: ls, acc =>
    if startsS l "MemTotal:" then memScan ls (extract_kb l, acc.2)
    else if startsS l "MemAvailable: " then memScan ls (acc.1, extract_kb l)
    else memScan ls acc

/-- The `{used:.1} GiB / {total:.1} GiB` rendering of the memory probe,
arguments in kibibytes. -/
def memRender (used total : Nat) : String :=
  fmtDeci (deciGiB used) ++ (" GiB / " ++ (fmtDeci (deciGiB total) ++ " GiB"))

/-- Parsed MemTotal of a meminfo read (the content is the literal
`unknown` when the read fails, as in the source). -/
def memTotalOf (file : Option String) : Nat :=
  (memScan (rlines (file.getD "unknown")) (0, 0)).1

/-- Parsed MemAvailable of a meminfo read. -/
def memAvailOf (file : Option String) : Nat :=
  (memScan (rlines (file.getD "unknown")) (0, 0)).2

/-- Source get_memory.  `used = total - available` is an unchecked u64
subtraction; `none` models the arithmetic-underflow panic of that
subtraction when the parsed available count exceeds the parsed total
(in a normal run the probe returns `some` of its FieldValue).  An
unreadable file yields the content `unknown` (closure return, as in
get_uptime), which parses to a zero total and hence the `unknown`
fallback. -/
def get_memory (file : Option String) : Option String :=
  let p := memScan (rlines (file.getD "unknown")) (0, 0)
  if p.1 = 0 then some "unknown"
  else if p.2 ≤ p.1 then some (memRender (p.1 - p.2) p.1)
  else none

/-- Source get_swap: used and total swap bytes from the sysinfo memory
snapshot, rendered unconditionally in decimal gigabytes. -/
def get_swap (used total : Nat) : String :=
  fmtDeci (deciGB used) ++ (" GiB / " ++ (fmtDeci (deciGB total) ++ " GiB"))

/-- One mounted filesystem as reported by the disk enumerator: mount
point path, total bytes, available bytes. -/
structure MountEntry where
  point : String
  total : Nat
  avail : Nat
deriving DecidableEq

/-- The loop body of get_storage: keep the accumulator unless the entry
is a candidate (its mount point is a string prefix of the queried path)
and is strictly longer than the accumulated best.  The source compares
byte lengths of the lossily decoded mount points; candidates are
prefixes of one common path, hence chain-ordered, so the character
length used here induces the same comparisons. -/
def stepMount (path : String) (acc : Option MountEntry) (m : MountEntry) : Option MountEntry :=
  if startsS path m.point then
    match acc with
    | some b => if b.point.length < m.point.length then some m else some b
    | none => some m
  else acc

/-- The `{used:.1} GiB / {total:.1} GiB ({path})` rendering of the
storage probe; used is the f64 difference total - available, computed
here exactly (it can be negative only for a pathological enumerator). -/
def mountRender (d : MountEntry) (path : String) : String :=
  fmtDeciI (deciGBInt ((d.total : Int) - (d.avail : Int))) ++
    (" GiB / " ++ (fmtDeci (deciGB d.total) ++ (" GiB (" ++ (path ++ ")"))))

/-- Source get_storage: fold the mount list through the strict-greater
update, then render the winner, or `N/A (path)` when no mount point is
a prefix of the queried path. -/
def get_storage (mounts : List MountEntry) (path : String) : String :=
  match mounts.foldl (stepMount path) none with
  | some d => mountRender d path
  | none => "N/A (" ++ path ++ ")"

/-! ## Renderer and whole-program pipeline -/

/-- The exact byte stream written by the twelve println calls of main,
in source order: the identity line, the separator, the eight labelled
lines, and the two ten-space continuation lines; every call appends one
line feed. -/
def renderOutput (user host os init kernel uptime shell mem swap
    storageBoot storageRoot storageHome : String) : String :=
  user ++ "@" ++ host ++ "\n" ++
  "----------" ++ "\n" ++
  "OS      : " ++ os ++ "\n" ++
  "Init    : " ++ init ++ "\n" ++
  "Kernel  : " ++ kernel ++ "\n" ++
  "Uptime  : " ++ uptime ++ "\n" ++
  "Shell   : " ++ shell ++ "\n" ++
  "Memory  : " ++ mem ++ "\n" ++
  "Swap    : " ++ swap ++ "\n" ++
  "Storage : " ++ storageBoot ++ "\n" ++
  "          " ++ storageRoot ++ "\n" ++
  "          " ++ storageHome ++ "\n"

/-- The observable host state a run samples: one field per source the
program touches (`none` = absent or failing). -/
structure HostState where
  userEnv : Option String
  shellEnv : Option String
  hostnameFile : Option String
  osReleaseFile : Option String
  commFile : Option String
  exeLink : Option String
  runSystemdExists : Bool
  unameRun : Option (Nat × String)
  uptimeFile : Option String
  meminfoFile : Option String
  swapUsed : Nat
  swapTotal : Nat
  mounts : List MountEntry

/-- A whole run of main on a host state: every probe sampled once, then
the renderer; `none` models the program aborting in the memory probe
(see get_memory). -/
def fullOutput (st : HostState) : Option String :=
  (get_memory st.meminfoFile).map (fun mem =>
    renderOutput (get_username st.userEnv) (get_hostname st.hostnameFile)
      (get_os st.osReleaseFile)
      (detect_init st.commFile st.exeLink st.runSystemdExists)
      (get_kernel st.unameRun) (get_uptime st.uptimeFile)
      (get_shell st.shellEnv) mem
      (get_swap st.swapUsed st.swapTotal)
      (get_storage st.mounts "/boot") (get_storage st.mounts "/")
      (get_storage st.mounts "/home"))

/-! ## Definitions written from the wording of the specification
(for the refinement claims C1 and C2). -/

/-- Modelled from the spec: the closed init decision table of section
4.3, row by row, on the already-derived comm and exe inputs. -/
def initSpecTable (comm exe : String) (runSystemdExists : Bool) : String :=
  if comm = "systemd" then "systemd"
  else if comm = "runit" || comm = "runsvinit" then "runit"
  else if comm = "s6-svscan" then "s6"
  else if comm = "init" then
    if containsS exe "openrc" then "openrc" else "sysvinit"
  else if runSystemdExists then "systemd (fallback)"
  else "unknown (" ++ comm ++ ")"

/-- Longest mount-point length among a candidate list (zero when the
list is empty). -/
def maxPointLen (cs : List MountEntry) : Nat :=
  cs.foldr (fun m acc => max m.point.length acc) 0

/-- First entry of maximal mount-point length in a candidate list. -/
def specBest (cs : List MountEntry) : Option MountEntry :=
  cs.find? (fun m => m.point.length = maxPointLen cs)

/-- Modelled from the spec: among the entries whose mount point is a
string prefix of the queried path, the one with the longest mount
point, ties broken in favour of the first-seen entry. -/
def specSelect (path : String) (mounts : List MountEntry) : Option MountEntry :=
  specBest (mounts.filter (fun m => startsS path m.point))

/-- Left-biased longer-point merge: the accumulated best against the
best of the remainder of the list. -/
def combM (a : MountEntry) : Option MountEntry → MountEntry
  | none => a
  | some b => if a.point.length < b.point.length then b else a

/-! ## Auxiliary predicates and concrete sample inputs -/

/-- A string with no embedded line feed. -/
def noNL (s : String) : Prop := '\n' ∉ s.data

instance (s : String) : Decidable (noNL s) :=
  inferInstanceAs (Decidable ('\n' ∉ s.data))

/-- The FieldValue well-formedness of the spec: nonempty, no embedded
line feed. -/
def fieldOK (s : String) : Prop := 1 ≤ s.data.length ∧ '\n' ∉ s.data

instance (s : String) : Decidable (fieldOK s) :=
  inferInstanceAs (Decidable (1 ≤ s.data.length ∧ '\n' ∉ s.data))

/-- The byte stream of a sequence of newline-terminated lines. -/
def linesData : List String → List Char
  | [] => []
  | l :: ls => l.data ++ '\n' :: linesData ls

/-- Sample root mount of the nested-mounts scenario (100 GB total,
50 GB available). -/
def mRoot : MountEntry := ⟨"/", 100000000000, 50000000000⟩

/-- Sample home mount of the nested-mounts scenario (200 GB total,
100 GB available). -/
def mHome : MountEntry := ⟨"/home", 200000000000, 100000000000⟩

/-- The nested mount list of the claim: `/` and `/home` both present. -/
def demoMounts : List MountEntry := [mRoot, mHome]

/-- A meminfo content whose available count exceeds its total. -/
def uflowMeminfo : String := "MemTotal: 100 kB\nMemAvailable: 101 kB"

/-- An ordinary meminfo content (2 GiB total, 1 GiB available). -/
def sampleMeminfo : String := "MemTotal: 2097152 kB\nMemAvailable: 1048576 kB"

/-- An ordinary meminfo content (4 GiB total, 1 GiB available). -/
def sampleMeminfo2 : String := "MemTotal: 4194304 kB\nMemAvailable: 1048576 kB"

/-- An os-release content with a quoted PRETTY_NAME value. -/
def sampleOsRelease : String := "NAME=Arch\nPRETTY_NAME=\"Arch Linux\"\nID=arch"

/-- An os-release PRETTY_NAME line whose value has interior double
quotes. -/
def quotedOsRelease : String := "PRETTY_NAME=\"Debian \"GNU\" Linux\""

/-- A host state in which every source is absent or failing: both
environment variables unset, every file unreadable, the symlink broken,
the systemd run directory missing, the child process unspawnable, zero
swap counters and an empty mount list. -/
def allAbsent : HostState :=
  ⟨none, none, none, none, none, none, false, none, none, none, 0, 0, []⟩

/-- A host state identical to `allAbsent` except that the uname child
runs (exit code 0) and prints two lines; its trimmed output keeps the
interior line feed. -/
def stBad : HostState :=
  ⟨none, none, none, none, none, none, false, some (0, "a\nb\n"), none, none, 0, 0, []⟩

/-! ## The storage fold implements longest-prefix, first-seen selection -/

lemma maxPointLen_cons (m : MountEntry) (cs : List MountEntry) :
    maxPointLen (m :: cs) = max m.point.length (maxPointLen cs) := rfl

lemma maxPointLen_attained : ∀ cs : List MountEntry, cs ≠ [] →
    ∃ m ∈ cs, m.point.length = maxPointLen cs := by
  intro cs
  induction cs with
  | nil => intro h; exact absurd rfl h
  | cons m cs ih =>
    intro _
    by_cases hc : cs = []
    · subst hc
      exact ⟨m, List.mem_singleton_self m, (Nat.max_zero m.point.length).symm⟩
    · obtain ⟨b, hbmem, hblen⟩ := ih hc
      by_cases hle : maxPointLen cs ≤ m.point.length
      · exact ⟨m, List.mem_cons_self m cs, by rw [maxPointLen_cons, Nat.max_eq_left hle]⟩
      · refine ⟨b, List.mem_cons_of_mem m hbmem, ?_⟩
        rw [maxPointLen_cons, Nat.max_eq_right (Nat.le_of_not_le hle), hblen]

lemma specBest_cons (m : MountEntry) (cs : List MountEntry) :
    specBest (m :: cs) = some (combM m (specBest cs)) := by
  by_cases hle : maxPointLen cs ≤ m.point.length
  · have hmax : maxPointLen (m :: cs) = m.point.length := by
      rw [maxPointLen_cons]; exact Nat.max_eq_left hle
    have hbest : specBest (m :: cs) = some m := by
      unfold specBest
      rw [List.find?_cons_of_pos _ (by simp [hmax])]
    rw [hbest]
    cases hsb : specBest cs with
    | none => simp [combM]
    | some b =>
      have hblen : b.point.length = maxPointLen cs := by
        simpa using List.find?_some hsb
      have hnlt : ¬ m.point.length < b.point.length := by omega
      simp [combM, hnlt]
  · have hlt : m.point.length < maxPointLen cs := Nat.lt_of_not_le hle
    have hmax : maxPointLen (m :: cs) = maxPointLen cs := by
      rw [maxPointLen_cons]; exact Nat.max_eq_right (Nat.le_of_lt hlt)
    have hcs : cs ≠ [] := by
      intro h; subst h; exact absurd hlt (by simp [maxPointLen])
    have hsome : (specBest cs).isSome := by
      rw [specBest, List.find?_isSome]
      obtain ⟨x, hx, hxlen⟩ := maxPointLen_attained cs hcs
      exact ⟨x, hx, by simp [hxlen]⟩
    obtain ⟨b, hb⟩ := Option.isSome_iff_exists.mp hsome
    have hblen : b.point.length = maxPointLen cs := by
      simpa using List.find?_some hb
    have hmne : ¬ (m.point.length = maxPointLen (m :: cs)) := by
      rw [hmax]; omega
    unfold specBest
    rw [List.find?_cons_of_neg _ (by simpa using hmne), hmax]
    have hfind : cs.find? (fun x => x.point.length = maxPointLen cs) = some b := hb
    rw [hfind]
    have hmb : m.point.length < b.point.length := by omega
    simp [combM, hmb]

lemma combM_assoc (a b : MountEntry) (s : Option MountEntry) :
    combM (combM a (some b)) s = combM a (some (combM b s)) := by
  cases s with
  | none => simp [combM]
  | some c => simp only [combM]; split_ifs <;> first | rfl | omega

lemma foldl_stepMount (path : String) : ∀ (ms : List MountEntry) (acc : Option MountEntry),
    ms.foldl (stepMount path) acc =
      (match acc with
       | none => specSelect path ms
       | some b => some (combM b (specSelect path ms))) := by
  intro ms
  induction ms with
  | nil =>
    intro acc
    cases acc with
    | none => rfl
    | some b => simp [specSelect, specBest, combM]
  | cons m ms ih =>
    intro acc
    by_cases hp : startsS path m.point
    · have hfil : (m :: ms).filter (fun x => startsS path x.point) =
          m :: ms.filter (fun x => startsS path x.point) :=
        List.filter_cons_of_pos hp
      have hsel : specSelect path (m :: ms) = some (combM m (specSelect path ms)) := by
        unfold specSelect
        rw [hfil]
        exact specBest_cons _ _
      cases acc with
      | none =>
        have hstep : stepMount path none m = some m := by simp [stepMount, hp]
        rw [List.foldl_cons, hstep, ih (some m), hsel]
      | some b =>
        have hstep : stepMount path (some b) m = some (combM b (some m)) := by
          simp only [stepMount, hp, if_true, combM]
          split <;> rfl
        rw [List.foldl_cons, hstep, ih (some (combM b (some m))), hsel]
        exact congrArg some (combM_assoc b m (specSelect path ms))
    · have hstep : stepMount path acc m = acc := by simp [stepMount, hp]
      have hfil : (m :: ms).filter (fun x => startsS path x.point) =
          ms.filter (fun x => startsS path x.point) :=
        List.filter_cons_of_neg hp
      have hsel : specSelect path (m :: ms) = specSelect path ms := by
        unfold specSelect
        rw [hfil]
      rw [List.foldl_cons, hstep, ih acc, hsel]

/-! ## Layout helpers -/

lemma noNL_append {a b : String} (ha : noNL a) (hb : noNL b) : noNL (a ++ b) := by
  unfold noNL at *
  rw [String.data_append]
  intro h
  rcases List.mem_append.mp h with h | h
  · exact ha h
  · exact hb h

lemma nl_data : "\n".data = ['\n'] := rfl

lemma splitNL_append (a b : List Char) (h : '\n' ∉ a) :
    splitNL (a ++ '\n' :: b) = a :: splitNL b := by
  induction a with
  | nil => simp [splitNL, splitOnCh]
  | cons c a ih =>
    have hc : ¬ c = '\n' := fun he => h (he ▸ List.mem_cons_self c a)
    have ha : '\n' ∉ a := fun hm => h (List.mem_cons_of_mem c hm)
    show splitOnCh '\n' (c :: (a ++ '\n' :: b)) = (c :: a) :: splitNL b
    rw [splitOnCh, if_neg hc]
    rw [show splitOnCh '\n' (a ++ '\n' :: b) = splitNL (a ++ '\n' :: b) from rfl, ih ha]

lemma splitNL_linesData : ∀ L : List String, (∀ l ∈ L, noNL l) →
    splitNL (linesData L) = L.map String.data ++ [[]] := by
  intro L
  induction L with
  | nil => intro _; rfl
  | cons l ls ih =>
    intro h
    rw [linesData, splitNL_append _ _ (h l (List.mem_cons_self l ls)),
      ih (fun x hx => h x (List.mem_cons_of_mem l hx))]
    rfl

lemma renderOutput_data (u h o i k up sl m sw sb sr sh : String) :
    (renderOutput u h o i k up sl m sw sb sr sh).data =
      linesData [u ++ "@" ++ h, "----------", "OS      : " ++ o, "Init    : " ++ i,
        "Kernel  : " ++ k, "Uptime  : " ++ up, "Shell   : " ++ sl, "Memory  : " ++ m,
        "Swap    : " ++ sw, "Storage : " ++ sb, "          " ++ sr, "          " ++ sh] := by
  simp [renderOutput, linesData, String.data_append, nl_data, List.append_assoc]

/-! ## A rendered numeric field is never the unknown literal -/

lemma ne_unknown_of_space {s : String} (h : ' ' ∈ s.data) : s ≠ "unknown" := by
  intro he
  rw [he] at h
  exact absurd h (by decide)

lemma space_mem_render (x y : String) : ' ' ∈ (x ++ (" GiB / " ++ y)).data := by
  rw [String.data_append, String.data_append]
  exact List.mem_append.mpr (Or.inr (List.mem_append.mpr (Or.inl (by decide))))

lemma memRender_ne_unknown (used total : Nat) : memRender used total ≠ "unknown" :=
  ne_unknown_of_space (space_mem_render (fmtDeci (deciGiB used))
    (fmtDeci (deciGiB total) ++ " GiB"))

lemma get_swap_ne_unknown (used total : Nat) : get_swap used total ≠ "unknown" :=
  ne_unknown_of_space (space_mem_render (fmtDeci (deciGB used))
    (fmtDeci (deciGB total) ++ " GiB"))

/-! ## Memory probe unfolding -/

lemma get_memory_eq (file : Option String) : get_memory file =
    (if memTotalOf file = 0 then some "unknown"
     else if memAvailOf file ≤ memTotalOf file then
       some (memRender (memTotalOf file - memAvailOf file) (memTotalOf file))
     else none) := rfl

/-- Shared form of the in-range memory rendering fact (used by the
theorems for C5 and C10). -/
lemma get_memory_of_le (file : Option String) (h0 : memTotalOf file ≠ 0)
    (hle : memAvailOf file ≤ memTotalOf file) :
    get_memory file = some (memRender (memTotalOf file - memAvailOf file) (memTotalOf file)) := by
  rw [get_memory_eq, if_neg h0, if_pos hle]

/-! ## Claim theorems -/

/-- C1: the init probe implements the closed decision table on
comm = trimmed /proc/1/comm (empty on failure) and exe = target of
/proc/1/exe (empty on failure): comm systemd gives systemd; runit and
runsvinit give runit; s6-svscan gives s6; init gives openrc when exe
has openrc as a substring and sysvinit otherwise; every other comm
gives the systemd fallback when /run/systemd/systemd exists and the
tagged unknown otherwise, with no further fallback.  The equality
against the spec-side table is stated for all inputs, followed by one
concrete instance per table row. -/
theorem c1_init_decision_table :
    (∀ (commFile exeLink : Option String) (sd : Bool),
      detect_init commFile exeLink sd =
        initSpecTable (trimS (commFile.getD "")) (exeLink.getD "") sd) ∧
    detect_init (some "systemd\n") none false = "systemd" ∧
    detect_init (some "runit\n") none false = "runit" ∧
    detect_init (some "runsvinit\n") none false = "runit" ∧
    detect_init (some "s6-svscan\n") none false = "s6" ∧
    detect_init (some "init\n") (some "/lib/rc/sh/openrc-run") false = "openrc" ∧
    detect_init (some "init\n") (some "/sbin/init") false = "sysvinit" ∧
    detect_init (some "mystery\n") none true = "systemd (fallback)" ∧
    detect_init (some "mystery\n") none false = "unknown (mystery)" ∧
    detect_init none none true = "systemd (fallback)" ∧
    detect_init none none false = "unknown ()" :=
  ⟨fun _ _ _ => rfl, by decide, by decide, by decide, by decide, by decide,
    by decide, by decide, by decide, by decide, by decide⟩

/-- C2: for every mount list and queried path the storage probe renders
the entry chosen by the spec-side longest-prefix, first-seen-tie
selection (or the N/A fallback when no mount point is a prefix), and on
the nested mount list the query /home selects the /home entry while the
query /boot, with no /boot mount, selects the / entry. -/
theorem c2_storage_longest_prefix :
    (∀ (mounts : List MountEntry) (path : String),
      get_storage mounts path =
        match specSelect path mounts with
        | some d => mountRender d path
        | none => "N/A (" ++ path ++ ")") ∧
    specSelect "/home" demoMounts = some mHome ∧
    specSelect "/boot" demoMounts = some mRoot ∧
    get_storage demoMounts "/home" = "100.0 GiB / 200.0 GiB (/home)" ∧
    get_storage demoMounts "/boot" = "50.0 GiB / 100.0 GiB (/boot)" := by
  refine ⟨?_, by decide, by decide, by decide, by decide⟩
  intro mounts path
  unfold get_storage
  rw [foldl_stepMount path mounts none]

/-- C3: when /proc/uptime cannot be read, the uptime probe does NOT
return the literal unknown: the closure-return slip makes it parse the
fallback text itself, so it renders zero uptime. -/
theorem c3_uptime_unreadable_renders_zero :
    get_uptime none = "0h 0m" ∧ get_uptime none ≠ "unknown" := by decide

/-- C4 counterexample: a uname child that exits with status 1 still has
its captured standard output returned, not the unknown fallback. -/
theorem c4_kernel_counterexample :
    get_kernel (some (1, "6.1.0-13-amd64\n")) = "6.1.0-13-amd64" ∧
    get_kernel (some (1, "6.1.0-13-amd64\n")) ≠ "unknown" := by decide

/-- C4 (amended): the kernel probe ignores the exit status entirely; it
returns the trimmed captured standard output whenever the child ran,
whatever its exit code, and returns unknown exactly when the command
could not be run at all. -/
theorem c4_kernel_ignores_exit_status :
    (∀ (code : Nat) (out : String), get_kernel (some (code, out)) = trimS out) ∧
    get_kernel none = "unknown" :=
  ⟨fun _ _ => rfl, rfl⟩

/-- C5 counterexample: a readable meminfo with nonzero MemTotal smaller
than MemAvailable makes the probe abort in the unchecked subtraction
(modelled as none) instead of rendering the claimed string. -/
theorem c5_memory_underflow_counterexample :
    memTotalOf (some uflowMeminfo) = 100 ∧ memAvailOf (some uflowMeminfo) = 101 ∧
    get_memory (some uflowMeminfo) = none := by decide

/-- C5 (amended): the memory probe returns unknown exactly when the
meminfo file is unreadable or the parsed MemTotal is zero; otherwise,
provided the parsed MemAvailable does not exceed the parsed MemTotal,
it renders used = total - available and total (both scanned by the
asymmetric key match and second-token kibibyte parse) in binary
gibibytes with one decimal digit.  When MemAvailable exceeds MemTotal
the unchecked subtraction underflows and nothing is rendered. -/
theorem c5_memory_unknown_iff :
    (∀ file, get_memory file = some "unknown" ↔ (file = none ∨ memTotalOf file = 0)) ∧
    (∀ file, memTotalOf file ≠ 0 → memAvailOf file ≤ memTotalOf file →
      get_memory file = some (memRender (memTotalOf file - memAvailOf file) (memTotalOf file))) := by
  constructor
  · intro file
    constructor
    · intro he
      by_cases h0 : memTotalOf file = 0
      · exact Or.inr h0
      · exfalso
        by_cases hle : memAvailOf file ≤ memTotalOf file
        · rw [get_memory_of_le file h0 hle] at he
          exact memRender_ne_unknown _ _ (Option.some.inj he)
        · rw [get_memory_eq, if_neg h0, if_neg hle] at he
          exact Option.noConfusion he
    · intro hor
      rcases hor with rfl | h0
      · decide
      · rw [get_memory_eq, if_pos h0]
  · exact fun file h0 hle => get_memory_of_le file h0 hle

/-- C5 witness: a 2 GiB / 1 GiB meminfo is in range and renders. -/
theorem c5_memory_witness :
    get_memory (some sampleMeminfo) = some "1.0 GiB / 2.0 GiB" :=
  (c5_memory_unknown_iff.2 (some sampleMeminfo) (by decide) (by decide)).trans (by decide)

/-- C6 counterexample: with the USER variable present but empty, the
user probe returns the empty string, which is not a length-one-or-more
FieldValue; the totality claim fails for arbitrary present sources. -/
theorem c6_totality_counterexample :
    get_username (some "") = "" ∧ ¬ fieldOK (get_username (some "")) := by decide

/-- C6 (amended): when every source is absent or fails (both variables
unset, every file unreadable, the link broken, the existence check
false, the child unspawnable, zero swap counters, empty mount list),
every probe returns a nonempty FieldValue without embedded line feeds. -/
theorem c6_totality_all_absent :
    fieldOK (get_username none) ∧ fieldOK (get_hostname none) ∧
    fieldOK (get_os none) ∧ fieldOK (detect_init none none false) ∧
    fieldOK (detect_init none none true) ∧ fieldOK (get_kernel none) ∧
    fieldOK (get_uptime none) ∧ fieldOK (get_shell none) ∧
    get_memory none = some "unknown" ∧ fieldOK "unknown" ∧
    fieldOK (get_swap 0 0) ∧ fieldOK (get_storage [] "/boot") ∧
    fieldOK (get_storage [] "/") ∧ fieldOK (get_storage [] "/home") := by decide

/-- C7 counterexample: interior double quotes are NOT preserved — the
probe deletes every double-quote character of the matched line. -/
theorem c7_os_counterexample :
    get_os (some quotedOsRelease) = "Debian GNU Linux" ∧
    ("Debian GNU Linux" : String) ≠ "Debian \"GNU\" Linux" := by decide

/-- C7 (amended): the os probe scans line by line and returns the first
PRETTY_NAME line with the key text and every double-quote character
(surrounding and interior) removed; when the file is absent or no
PRETTY_NAME line exists it returns unknown. -/
theorem c7_os_amended :
    get_os none = "unknown" ∧
    (∀ file, (rlines file).find? pnLine = none → get_os (some file) = "unknown") ∧
    (∀ file line, (rlines file).find? pnLine = some line →
      get_os (some file) = stripQ (removeKey line)) := by
  refine ⟨by decide, ?_, ?_⟩
  · intro file h
    have hu : get_os (some file) =
        (match (rlines file).find? pnLine with
         | some l => stripQ (removeKey l)
         | none => "unknown") := rfl
    rw [hu, h]
  · intro file line h
    have hu : get_os (some file) =
        (match (rlines file).find? pnLine with
         | some l => stripQ (removeKey l)
         | none => "unknown") := rfl
    rw [hu, h]

/-- C7 witness: a quoted Arch Linux pretty name is found and unquoted. -/
theorem c7_os_amended_witness :
    get_os (some sampleOsRelease) = "Arch Linux" :=
  (c7_os_amended.2.2 sampleOsRelease "PRETTY_NAME=\"Arch Linux\"" (by decide)).trans
    (by decide)

/-- C8: the swap probe always renders used and total in decimal
gigabytes with one decimal digit; two zero counters give the exact
zero literal, and no counters ever give the unknown fallback. -/
theorem c8_swap_render :
    get_swap 0 0 = "0.0 GiB / 0.0 GiB" ∧
    get_swap 500000000 2000000000 = "0.5 GiB / 2.0 GiB" ∧
    (∀ used total, get_swap used total ≠ "unknown") :=
  ⟨by decide, by decide, fun used total => get_swap_ne_unknown used total⟩

/-- C9 counterexample: a run whose uname child prints two lines yields
an output of more than twelve newline-terminated pieces, so the layout
claim fails for arbitrary runs. -/
theorem c9_layout_counterexample :
    (fullOutput stBad).map (fun o => (splitNL o.data).length) = some 14 := by decide

/-- C9 (amended): for every run in which each probe value is free of
line feeds, the rendered output is exactly twelve newline-terminated
lines: the identity line, the ten-hyphen separator, the eight labelled
lines with the colons aligned at column nine, and the three storage
lines with the two continuation lines indented by ten spaces, in
exactly this order. -/
theorem c9_layout_lines (u h o i k up sl m sw sb sr sh : String)
    (h1 : noNL u) (h2 : noNL h) (h3 : noNL o) (h4 : noNL i) (h5 : noNL k)
    (h6 : noNL up) (h7 : noNL sl) (h8 : noNL m) (h9 : noNL sw) (h10 : noNL sb)
    (h11 : noNL sr) (h12 : noNL sh) :
    splitNL (renderOutput u h o i k up sl m sw sb sr sh).data =
      [(u ++ "@" ++ h).data, "----------".data, ("OS      : " ++ o).data,
       ("Init    : " ++ i).data, ("Kernel  : " ++ k).data, ("Uptime  : " ++ up).data,
       ("Shell   : " ++ sl).data, ("Memory  : " ++ m).data, ("Swap    : " ++ sw).data,
       ("Storage : " ++ sb).data, ("          " ++ sr).data, ("          " ++ sh).data,
       []] := by
  rw [renderOutput_data]
  rw [splitNL_linesData _ ?hall]
  case hall =>
    intro l hl
    simp only [List.mem_cons, List.not_mem_nil, or_false] at hl
    rcases hl with rfl | rfl | rfl | rfl | rfl | rfl | rfl | rfl | rfl | rfl | rfl | rfl
    · exact noNL_append (noNL_append h1 (by decide)) h2
    · decide
    · exact noNL_append (by decide) h3
    · exact noNL_append (by decide) h4
    · exact noNL_append (by decide) h5
    · exact noNL_append (by decide) h6
    · exact noNL_append (by decide) h7
    · exact noNL_append (by decide) h8
    · exact noNL_append (by decide) h9
    · exact noNL_append (by decide) h10
    · exact noNL_append (by decide) h11
    · exact noNL_append (by decide) h12
  rfl

/-- C9 witness: the layout instantiated at the happy-path field values. -/
theorem c9_layout_lines_witness :
    splitNL (renderOutput "alice" "host" "Debian GNU/Linux 12" "systemd"
      "6.1.0-13-amd64" "1h 2m" "zsh" "3.9 GiB / 7.8 GiB" "0.5 GiB / 2.0 GiB"
      "20.0 GiB / 50.0 GiB (/boot)" "20.0 GiB / 50.0 GiB (/)"
      "20.0 GiB / 50.0 GiB (/home)").data =
      [("alice" ++ "@" ++ "host").data, "----------".data,
       ("OS      : " ++ "Debian GNU/Linux 12").data, ("Init    : " ++ "systemd").data,
       ("Kernel  : " ++ "6.1.0-13-amd64").data, ("Uptime  : " ++ "1h 2m").data,
       ("Shell   : " ++ "zsh").data, ("Memory  : " ++ "3.9 GiB / 7.8 GiB").data,
       ("Swap    : " ++ "0.5 GiB / 2.0 GiB").data,
       ("Storage : " ++ "20.0 GiB / 50.0 GiB (/boot)").data,
       ("          " ++ "20.0 GiB / 50.0 GiB (/)").data,
       ("          " ++ "20.0 GiB / 50.0 GiB (/home)").data, []] :=
  c9_layout_lines "alice" "host" "Debian GNU/Linux 12" "systemd" "6.1.0-13-amd64"
    "1h 2m" "zsh" "3.9 GiB / 7.8 GiB" "0.5 GiB / 2.0 GiB" "20.0 GiB / 50.0 GiB (/boot)"
    "20.0 GiB / 50.0 GiB (/)" "20.0 GiB / 50.0 GiB (/home)"
    (by decide) (by decide) (by decide) (by decide) (by decide) (by decide)
    (by decide) (by decide) (by decide) (by decide) (by decide) (by decide)

/-- C10: the unchecked u64 subtraction of the memory probe cannot
underflow when the parsed MemAvailable does not exceed the parsed
MemTotal — the formatting branch is then reached past the zero-total
guard — while an input with MemAvailable above MemTotal reaches the
underflow branch. -/
theorem c10_memory_subtraction :
    (∀ file, memTotalOf file ≠ 0 → memAvailOf file ≤ memTotalOf file →
      get_memory file = some (memRender (memTotalOf file - memAvailOf file) (memTotalOf file))) ∧
    (memTotalOf (some uflowMeminfo) ≠ 0 ∧
     memTotalOf (some uflowMeminfo) < memAvailOf (some uflowMeminfo) ∧
     get_memory (some uflowMeminfo) = none) :=
  ⟨fun file h0 hle => get_memory_of_le file h0 hle, by decide, by decide, by decide⟩

/-- C10 witness: a 4 GiB / 1 GiB meminfo is in range and renders. -/
theorem c10_memory_subtraction_witness :
    get_memory (some sampleMeminfo2) = some "3.0 GiB / 4.0 GiB" :=
  (c10_memory_subtraction.1 (some sampleMeminfo2) (by decide) (by decide)).trans
    (by decide)

end RFetch
